import Mathlib

/-!
A shallow embedding of the browser-side gallery code of the
neds-building-services-site repository (src/assets/gallery.js and
src/assets/lightbox.js), together with theorems about its behaviour.

JavaScript strings are embedded as Lean `String`, with the string
operations the code uses (trim, toLowerCase, startsWith, the
`^https?://` prefix test) implemented character-wise on `String.data`
so that all definitions evaluate on concrete inputs.  Nullable /
possibly-missing JSON attributes are embedded as `Option`.
-/

namespace Neds

/-- An image entry of a phase in the manifest (`srcThumb`, `srcLarge`,
optional `alt`). -/
structure Image where
  srcThumb : String
  srcLarge : String
  alt : Option String
deriving DecidableEq, Repr

/-- A video entry of a phase (`kind` is `"embed"` or `"file"`, `url` may
be absent). -/
structure Video where
  kind : String
  url : Option String
deriving DecidableEq, Repr

/-- A phase of a project: the `images` / `videos` attributes may be
missing from the JSON (the code reads `phase.images || []`). -/
structure Phase where
  images : Option (List Image)
  videos : Option (List Video)
deriving DecidableEq, Repr

/-- The four phase buckets of a project; each may be absent
(the code reads `p.phases?.before` etc.). -/
structure Phases where
  renderings : Option Phase
  before : Option Phase
  during : Option Phase
  after : Option Phase
deriving DecidableEq, Repr

/-- A project record of the manifest.  All metadata attributes are
optional; `slug` is the project's identifier. -/
structure Project where
  slug : String
  title : Option String
  location : Option String
  date : Option String
  projectType : Option String
  scope : Option String
  summary : Option String
  notes : Option String
  client : Option String
  status : Option String
  buildingArea : Option String
  coverThumb : Option String
  sortKey : Option String
  phases : Option Phases
deriving DecidableEq, Repr

/-- The manifest (`generated/gallery.json`): the `projects` attribute may
be absent (the code reads `data.projects || []`). -/
structure Manifest where
  projects : Option (List Project)
deriving DecidableEq, Repr

/-- JavaScript truthiness of a possibly-missing string attribute:
`null`/`undefined` and the empty string are falsy. -/
def truthy (o : Option String) : Bool :=
  o.getD "" != ""

/-- ASCII lower-casing of one character, as `toLowerCase` acts on the
ASCII inputs this site uses. -/
def lowerChar (c : Char) : Char :=
  if 'A' ≤ c && c ≤ 'Z' then Char.ofNat (c.toNat + 32) else c

/-- `s.toLowerCase()`, character-wise. -/
def toLowerS (s : String) : String :=
  ⟨s.data.map lowerChar⟩

/-- `String.prototype.trim`: drop whitespace from both ends. -/
def trimChars (l : List Char) : List Char :=
  ((l.dropWhile Char.isWhitespace).reverse.dropWhile Char.isWhitespace).reverse

/-- gallery.js `safeText`: `(v ?? "").toString().trim()`. -/
def safeText (v : Option String) : String :=
  ⟨trimChars (v.getD "").data⟩

/-- `u.startsWith(p)`, character-wise. -/
def startsWithS (u p : String) : Bool :=
  List.isPrefixOf p.data u.data

/-- The gallery.js test `/^https?:\/\//i.test(u)`: a case-insensitive
`http://` or `https://` prefix. -/
def isExternalUrl (u : String) : Bool :=
  List.isPrefixOf "http://".data (u.data.map lowerChar) ||
    List.isPrefixOf "https://".data (u.data.map lowerChar)

/-- `u.replace(/^\.\//, "")`: strip one leading `./`. -/
def stripDotSlash (u : String) : String :=
  if List.isPrefixOf "./".data u.data then ⟨u.data.drop 2⟩ else u

/-- gallery.js `withBase`, parameterised by the page's computed
`BASE_PATH` (which is `""` off github.io and `"/" + repoName` on it). -/
def withBase (basePath : String) (url : String) : String :=
  if url == "" then ""
  else if isExternalUrl url then url
  else if basePath != "" && startsWithS url (basePath ++ "/") then url
  else if startsWithS url "/" then basePath ++ url
  else basePath ++ "/" ++ stripDotSlash url

/-! ## The lightbox (src/assets/lightbox.js)

The closure state `items`/`idx` of `createLightbox` is embedded as an
explicit state record; `open`, `prev`, `next` are state transformers and
`render` returns the image that `img.src`/`img.alt` are taken from
(`none` when `render` returns without touching the DOM). -/

/-- The mutable closure state of `createLightbox`. -/
structure LightboxState where
  items : List Image
  idx : Nat
deriving DecidableEq, Repr

namespace Lightbox

/-- lightbox.js `open`: store the items and clamp the start index by
`Math.max(0, Math.min(startIndex, items.length - 1))` (JS numbers are
embedded as `Int`; the result is non-negative, stored as `Nat`). -/
def open' (newItems : List Image) (startIndex : Int) : LightboxState :=
  { items := newItems
    idx := (max 0 (min startIndex ((newItems.length : Int) - 1))).toNat }

/-- lightbox.js `render`: returns without doing anything when `items` is
empty, otherwise reads `items[idx]`. -/
def render (st : LightboxState) : Option Image :=
  if st.items.isEmpty then none else st.items.get? st.idx

/-- lightbox.js `prev`: `idx = (idx - 1 + items.length) % items.length`
(computed in `Int` exactly as JS does, then stored back). -/
def prev (st : LightboxState) : LightboxState :=
  if st.items.isEmpty then st
  else { st with
          idx := (((st.idx : Int) - 1 + st.items.length) % st.items.length).toNat }

/-- lightbox.js `next`: `idx = (idx + 1) % items.length`. -/
def next (st : LightboxState) : LightboxState :=
  if st.items.isEmpty then st
  else { st with idx := (st.idx + 1) % st.items.length }

end Lightbox

/-! ## The gallery renderer (src/assets/gallery.js) -/

/-- gallery.js `hasPhaseContent`: false on a missing phase, otherwise
`imgs.length > 0 || vids.length > 0` with missing lists read as `[]`. -/
def hasPhaseContent : Option Phase → Bool
  | none => false
  | some ph => !(ph.images.getD []).isEmpty || !(ph.videos.getD []).isEmpty

/-- gallery.js `hasOverviewContent`: truthiness of any of the nine
metadata attributes. -/
def hasOverviewContent (p : Project) : Bool :=
  truthy p.location || truthy p.date || truthy p.projectType || truthy p.scope ||
    truthy p.client || truthy p.status || truthy p.buildingArea || truthy p.notes ||
    truthy p.summary

/-- `p.phases?.renderings`. -/
def phaseRenderings (p : Project) : Option Phase := p.phases.bind Phases.renderings

/-- `p.phases?.before`. -/
def phaseBefore (p : Project) : Option Phase := p.phases.bind Phases.before

/-- `p.phases?.during`. -/
def phaseDuring (p : Project) : Option Phase := p.phases.bind Phases.during

/-- `p.phases?.after`. -/
def phaseAfter (p : Project) : Option Phase := p.phases.bind Phases.after

/-- The four phase tab keys, in the order renderProject handles them. -/
def phaseKeys : List String := ["renderings", "before", "during", "after"]

/-- The phase bucket a key designates. -/
def phaseOf (p : Project) (key : String) : Option Phase :=
  if key == "renderings" then phaseRenderings p
  else if key == "before" then phaseBefore p
  else if key == "during" then phaseDuring p
  else if key == "after" then phaseAfter p
  else none

/-- The DOM section `renderPhase` builds for one phase: its
`data-phase` key, heading, video cards and thumbnail images (the latter
with `withBase` applied, as the `fixedImages` preprocessing does). -/
structure GallerySection where
  phaseKey : String
  title : String
  videos : List Video
  images : List Image
deriving DecidableEq, Repr

/-- gallery.js `renderPhase`: `null` on a missing phase or a phase with
neither images nor videos, otherwise the populated section. -/
def renderPhase (basePath phaseKey phaseTitle : String) (phase : Option Phase) :
    Option GallerySection :=
  match phase with
  | none => none
  | some ph =>
    let images := ph.images.getD []
    let videos := ph.videos.getD []
    if images.isEmpty && videos.isEmpty then none
    else
      some { phaseKey := phaseKey
             title := phaseTitle
             videos := videos
             images := images.map fun x =>
               { x with srcThumb := withBase basePath x.srcThumb
                        srcLarge := withBase basePath x.srcLarge } }

/-- The `anyMedia` flag of renderProject. -/
def anyMedia (p : Project) : Bool :=
  hasPhaseContent (phaseRenderings p) || hasPhaseContent (phaseBefore p) ||
    hasPhaseContent (phaseDuring p) || hasPhaseContent (phaseAfter p)

/-- The `tabList` renderProject builds: Overview if there is overview
content, All if any phase has media, then one tab per phase with media,
in source order. -/
def tabList (p : Project) : List (String × String) :=
  (if hasOverviewContent p then [("overview", "Overview")] else []) ++
  (if anyMedia p then [("all", "All")] else []) ++
  (if hasPhaseContent (phaseRenderings p) then [("renderings", "Renderings")] else []) ++
  (if hasPhaseContent (phaseBefore p) then [("before", "Before")] else []) ++
  (if hasPhaseContent (phaseDuring p) then [("during", "During")] else []) ++
  (if hasPhaseContent (phaseAfter p) then [("after", "After")] else [])

/-- The "Default tab by URL param" block of renderProject (gallery.js
lines 437-451): `want` is the lowercased `tab` query parameter, `tl` the
project's tab list; the returned key is the one passed to `switchTab`. -/
def defaultTab (want : String) (tl : List (String × String)) : String :=
  let available := tl.map Prod.fst
  let d0 := match tl with
    | [] => "overview"
    | t :: _ => t.1
  let d1 :=
    if want == "overview" && available.contains "overview" then "overview"
    else if (want == "all" || want == "media") && available.contains "all" then "all"
    else if available.contains want then want
    else d0
  if !available.contains d1 && available.contains "all" then "all" else d1

/-- The initial-tab rule as the specification sentence words it: if the
lowercased parameter names an available tab it is chosen; otherwise the
first available tab, falling back to `"all"` when that first choice is
unavailable.  (A spec-side reading, kept to compare against
`defaultTab`.) -/
def claimInitialTab (want : String) (tl : List (String × String)) : String :=
  if (tl.map Prod.fst).contains want then want
  else
    match tl with
    | t :: _ => t.1
    | [] => "all"

/-- The initial-tab rule as the code actually behaves: an available tab
named by the parameter is chosen; `"media"` is an alias for `"all"` when
the All tab is available; otherwise the first tab of the list, and
`"overview"` when the list is empty. -/
def amendedInitialTab (want : String) (tl : List (String × String)) : String :=
  if (tl.map Prod.fst).contains want then want
  else if want == "media" && (tl.map Prod.fst).contains "all" then "all"
  else
    match tl with
    | t :: _ => t.1
    | [] => "overview"

/-- The `fields` array of renderProject's overview block, in source
order, each value already passed through `safeText`. -/
def overviewFields (p : Project) : List (String × String) :=
  [("Location", safeText p.location),
   ("Date", safeText p.date),
   ("Project Type", safeText p.projectType),
   ("Scope", safeText p.scope),
   ("Summary", safeText p.summary),
   ("Notes", safeText p.notes),
   ("Client", safeText p.client),
   ("Status", safeText p.status),
   ("Building Area", safeText p.buildingArea)]

/-- The info rows renderProject appends: fields whose (trimmed) value is
non-empty (`if (!v) continue`). -/
def infoRows (p : Project) : List (String × String) :=
  (overviewFields p).filter fun kv => kv.2 != ""

/-- The final `#infoList` contents: the rows, or the placeholder row
when every field was skipped. -/
def infoListItems (p : Project) : List (String × String) :=
  if (infoRows p).isEmpty then [("Info", "No details provided yet.")] else infoRows p

/-- The comparison `(b.sortKey || "")` / `(a.sortKey || "")` is read
through: a missing sort key is the empty string. -/
def sortKeyD (p : Project) : String := p.sortKey.getD ""

/-- Code-point lexicographic `≤` on character lists, embedding the
`localeCompare` string comparison the home-page sort uses. -/
def leL : List Char → List Char → Bool
  | [], _ => true
  | _ :: _, [] => false
  | a :: as, b :: bs =>
    if a.toNat < b.toNat then true
    else if b.toNat < a.toNat then false
    else leL as bs

/-- The renderHome sort comparator
`(a, b) => (b.sortKey || "").localeCompare(a.sortKey || "")`: `a` may
come before `b` exactly when `b`'s key is at most `a`'s key. -/
def homeLe (a b : Project) : Bool :=
  leL (sortKeyD b).data (sortKeyD a).data

/-- The project list in the order renderHome appends the cards:
`(data.projects || []).slice().sort(...)`. -/
def renderHomeProjects (m : Manifest) : List Project :=
  (m.projects.getD []).mergeSort homeLe

/-- The project card `buildProjectCard` assembles. -/
structure Card where
  coverHref : String
  coverSrc : String
  coverAlt : String
  statusFlag : Option String
  titleText : String
  titleHref : String
  detailHref : String
deriving DecidableEq, Repr

/-- gallery.js `buildProjectCard`, parameterised by the page's
`BASE_PATH`. -/
def buildProjectCard (basePath : String) (p : Project) : Card :=
  let mediaUrl := "projects/" ++ p.slug ++ "/?tab=all"
  let overviewUrl := "projects/" ++ p.slug ++ "/?tab=overview"
  { coverHref := withBase basePath mediaUrl
    coverSrc := withBase basePath (p.coverThumb.getD "")
    coverAlt := if truthy p.title then p.title.getD "" else p.slug
    statusFlag := if truthy p.status then p.status else none
    titleText := if truthy p.title then p.title.getD "" else p.slug
    titleHref := withBase basePath overviewUrl
    detailHref := withBase basePath mediaUrl }

/-- The inline error markup both renderers write on a failed fetch. -/
def failedHtml (dataUrl : String) : String :=
  "<div class=\"card\" style=\"padding:16px;color:var(--muted)\">Failed to load "
    ++ dataUrl ++ "</div>"

/-- What renderHome leaves in the `#projectsGrid` mount. -/
inductive HomeView where
  | fetchError (html : String)
  | emptyNotice
  | cards (cs : List Card)
deriving DecidableEq, Repr

/-- gallery.js `renderHome`, with the fetch outcome passed in (`none`
for a response with `!res.ok`). -/
def renderHome (basePath dataUrl : String) (res : Option Manifest) : HomeView :=
  match res with
  | none => .fetchError (failedHtml dataUrl)
  | some data =>
    let projects := (data.projects.getD []).mergeSort homeLe
    if projects.isEmpty then .emptyNotice
    else .cards (projects.map (buildProjectCard basePath))

/-- The inline markup renderProject writes when no project matches the
page's slug. -/
def notFoundHtml (slug : String) : String :=
  "<div class=\"card\" style=\"padding:16px;color:var(--muted)\">未找到项目："
    ++ slug ++ "</div>"

/-- The `[secRenderings, secBefore, secDuring, secAfter].filter(Boolean)`
section list of renderProject. -/
def projectSections (basePath : String) (p : Project) : List GallerySection :=
  [renderPhase basePath "renderings" "Renderings" (phaseRenderings p),
   renderPhase basePath "before" "Before" (phaseBefore p),
   renderPhase basePath "during" "During" (phaseDuring p),
   renderPhase basePath "after" "After" (phaseAfter p)].filterMap id

/-- Everything renderProject builds into the page for a found project. -/
structure ProjectPage where
  titleText : String
  statusBadge : Option String
  infoList : List (String × String)
  sections : List GallerySection
  tabs : List (String × String)
  initialTab : String
deriving DecidableEq, Repr

/-- What renderProject leaves in the `#projectMount` page. -/
inductive ProjectView where
  | fetchError (html : String)
  | notFound (html : String)
  | page (pv : ProjectPage)
deriving DecidableEq, Repr

/-- gallery.js `renderProject`, with the page attributes
(`data-project-slug`, `data-gallery-url`), the `tab` query parameter and
the fetch outcome passed in. -/
def renderProject (basePath slug dataUrl : String) (tabParam : Option String)
    (res : Option Manifest) : ProjectView :=
  match res with
  | none => .fetchError (failedHtml dataUrl)
  | some data =>
    match (data.projects.getD []).find? (fun x => x.slug == slug) with
    | none => .notFound (notFoundHtml slug)
    | some p =>
      .page { titleText := if truthy p.title then p.title.getD "" else slug
              statusBadge := if truthy p.status then p.status else none
              infoList := infoListItems p
              sections := projectSections basePath p
              tabs := tabList p
              initialTab := defaultTab (toLowerS (tabParam.getD "")) (tabList p) }

/-! ## The manifest builder (tools/build.py), modelled from the spec -/

/-- Modelled from the spec: `tools/build.py` is not among the source
files.  One project folder of the fixed input directory layout: its
slug, the `project.json` metadata record, and the media files of the
phase folders. -/
structure ProjectFolder where
  slug : String
  meta : List (String × String)
  beforeFiles : List String
  duringFiles : List String
  afterFiles : List String
deriving DecidableEq, Repr

/-- Modelled from the spec: the manifest entry serialised for one
project folder — a deterministic function of the folder contents alone
(images are processed independently, no cross-project dependency). -/
def serializeFolder (f : ProjectFolder) : String :=
  f.slug ++ "|" ++
    String.intercalate "," (f.meta.map fun kv => kv.1 ++ "=" ++ kv.2) ++ "|" ++
    String.intercalate "," f.beforeFiles ++ "|" ++
    String.intercalate "," f.duringFiles ++ "|" ++
    String.intercalate "," f.afterFiles

/-- Modelled from the spec: the aggregate manifest bytes covering all
projects, serialised from the walked input tree in order. -/
def buildManifestBytes (input : List ProjectFolder) : String :=
  String.intercalate "\n" (input.map serializeFolder)

/-- Modelled from the spec: the site tree the build acts on — the fixed
input directory tree and the manifest output file (absent before the
first build). -/
structure SiteState where
  input : List ProjectFolder
  manifest : Option String
deriving DecidableEq, Repr

/-- Modelled from the spec: one build invocation reads the fixed input
tree, rebuilds everything and overwrites the manifest; it does not read
its own previous output. -/
def runBuild (s : SiteState) : SiteState :=
  { input := s.input, manifest := some (buildManifestBytes s.input) }

/-! ## Concrete fixtures -/

/-- A concrete image fixture. -/
def imgA : Image := { srcThumb := "a-thumb.jpg", srcLarge := "a-large.jpg", alt := none }

/-- A second concrete image fixture. -/
def imgB : Image := { srcThumb := "b-thumb.jpg", srcLarge := "b-large.jpg", alt := some "b" }

/-- A concrete project with overview content (a location) and media in
its before phase only. -/
def p0 : Project :=
  { slug := "house", title := some "House", location := some "Sydney"
    date := none, projectType := none, scope := none, summary := none
    notes := none, client := none, status := none, buildingArea := none
    coverThumb := none, sortKey := some "2024-05"
    phases := some { renderings := none
                     before := some { images := some [imgA], videos := none }
                     during := none, after := none } }

/-- A concrete project with no metadata and no media at all. -/
def pBare : Project :=
  { slug := "bare", title := none, location := none
    date := none, projectType := none, scope := none, summary := none
    notes := none, client := none, status := none, buildingArea := none
    coverThumb := none, sortKey := none, phases := none }

/-- A concrete one-project manifest. -/
def mOne : Manifest := { projects := some [p0] }

theorem isPrefixOf_self_append (p t : List Char) :
    List.isPrefixOf p (p ++ t) = true := by
  rw [List.isPrefixOf_iff_prefix]
  exact List.prefix_append p t

theorem isPrefixOf_append_cons (p : List Char) (a : Char) (t : List Char) :
    List.isPrefixOf (p ++ [a]) (p ++ a :: t) = true := by
  have hassoc : p ++ a :: t = (p ++ [a]) ++ t := by simp
  rw [List.isPrefixOf_iff_prefix, hassoc]
  exact List.prefix_append _ _

theorem ne_empty_of_data_cons {u : String} {c : Char} {t : List Char}
    (h : u.data = c :: t) : (u == "") = false := by
  rw [beq_eq_false_iff_ne]
  intro he
  rw [he] at h
  exact List.cons_ne_nil c t h.symm

theorem isExternalUrl_of_slash {u : String} {t : List Char}
    (h : u.data = '/' :: t) : isExternalUrl u = false := by
  have h7 : "http://".data = ['h', 't', 't', 'p', ':', '/', '/'] := rfl
  have h8 : "https://".data = ['h', 't', 't', 'p', 's', ':', '/', '/'] := rfl
  have hl : lowerChar '/' = '/' := by decide
  have hh : (('h' : Char) == '/') = false := by decide
  simp only [isExternalUrl, h, h7, h8, List.map_cons, hl, List.isPrefixOf]
  simp [hh]

theorem isExternalUrl_data_ne_nil {u : String} (h : isExternalUrl u = true) :
    u.data ≠ [] := by
  intro hnil
  have h7 : "http://".data = ['h', 't', 't', 'p', ':', '/', '/'] := rfl
  have h8 : "https://".data = ['h', 't', 't', 'p', 's', ':', '/', '/'] := rfl
  simp only [isExternalUrl, hnil, List.map_nil, h7, h8, List.isPrefixOf] at h
  simp at h

theorem startsWith_slash_data {u : String} (h : startsWithS u "/" = true) :
    ∃ t, u.data = '/' :: t := by
  have h1 : "/".data = ['/'] := rfl
  unfold startsWithS at h
  rw [h1] at h
  cases hu : u.data with
  | nil => rw [hu] at h; simp [List.isPrefixOf] at h
  | cons c t =>
    rw [hu] at h
    simp [List.isPrefixOf] at h
    subst h
    exact ⟨t, rfl⟩

theorem withBase_external_fixed (basePath u : String)
    (hext : isExternalUrl u = true) : withBase basePath u = u := by
  have hnil := isExternalUrl_data_ne_nil hext
  have hne : (u == "") = false := by
    rw [beq_eq_false_iff_ne]
    intro he
    exact hnil (by rw [he])
  simp [withBase, hne, hext]

theorem withBase_based_fixed (basePath u : String) (hbne : basePath ≠ "")
    (hpre : startsWithS u (basePath ++ "/") = true) : withBase basePath u = u := by
  have hslashd : "/".data = ['/'] := rfl
  have hul : u.data ≠ [] := by
    intro hnil
    unfold startsWithS at hpre
    rw [hnil, String.data_append, hslashd] at hpre
    cases hb2 : basePath.data with
    | nil => rw [hb2] at hpre; simp [List.isPrefixOf] at hpre
    | cons c cs => rw [hb2] at hpre; simp [List.isPrefixOf] at hpre
  have hne : (u == "") = false := by
    rw [beq_eq_false_iff_ne]
    intro he
    exact hul (by rw [he])
  by_cases hext : isExternalUrl u = true
  · exact withBase_external_fixed basePath u hext
  · rw [Bool.not_eq_true] at hext
    have hbne' : (basePath != "") = true := bne_iff_ne.mpr hbne
    simp [withBase, hne, hext, hbne', hpre]

theorem withBase_append_fixed (basePath w : String)
    (hb : basePath = "" ∨ ∃ s : String, basePath = "/" ++ s)
    (hw : ∃ t, w.data = '/' :: t) :
    withBase basePath (basePath ++ w) = basePath ++ w := by
  obtain ⟨t, ht⟩ := hw
  have hslashd : "/".data = ['/'] := rfl
  rcases hb with hbe | ⟨s, hbs⟩
  · subst hbe
    rw [String.empty_append]
    have hne : (w == "") = false := ne_empty_of_data_cons ht
    have hext : isExternalUrl w = false := isExternalUrl_of_slash ht
    have hsl : startsWithS w "/" = true := by
      unfold startsWithS
      rw [hslashd, ht]
      simp [List.isPrefixOf]
    simp [withBase, hne, hext, hsl, String.empty_append]
  · subst hbs
    have hbd : ("/" ++ s).data = '/' :: s.data := by
      rw [String.data_append, hslashd]; rfl
    have hvd : (("/" ++ s) ++ w).data = '/' :: (s.data ++ w.data) := by
      rw [String.data_append, hbd]; rfl
    have hne : ((("/" ++ s) ++ w) == "") = false := ne_empty_of_data_cons hvd
    have hext : isExternalUrl (("/" ++ s) ++ w) = false := isExternalUrl_of_slash hvd
    have hbne : (("/" ++ s) != "") = true := by
      rw [bne_iff_ne]
      intro hh
      have := congrArg String.data hh
      rw [hbd] at this
      exact List.cons_ne_nil _ _ this
    have hvpre : startsWithS (("/" ++ s) ++ w) (("/" ++ s) ++ "/") = true := by
      unfold startsWithS
      simp only [String.data_append, hslashd, ht]
      exact isPrefixOf_append_cons (['/'] ++ s.data) '/' t
    simp [withBase, hne, hext, hbne, hvpre]

/-- C10: `withBase` is idempotent — applying it twice equals applying it
once, for the base paths the page actually computes (empty off
github.io, `"/" + repoName` on it); in particular an external http(s)
URL and a URL already carrying the base-path prefix come back
unchanged. -/
theorem withBase_idempotent (basePath u : String)
    (hb : basePath = "" ∨ ∃ s : String, basePath = "/" ++ s) :
    withBase basePath (withBase basePath u) = withBase basePath u ∧
    (isExternalUrl u = true → withBase basePath u = u) ∧
    (basePath ≠ "" → startsWithS u (basePath ++ "/") = true →
      withBase basePath u = u) := by
  refine ⟨?_, fun hext => withBase_external_fixed basePath u hext,
    fun hbne hpre => withBase_based_fixed basePath u hbne hpre⟩
  by_cases h0 : u = ""
  · subst h0
    have h1 : withBase basePath "" = "" := by simp [withBase]
    rw [h1, h1]
  · have hne : (u == "") = false := beq_eq_false_iff_ne.mpr h0
    by_cases hext : isExternalUrl u = true
    · have hfix := withBase_external_fixed basePath u hext
      rw [hfix]
      exact hfix
    · rw [Bool.not_eq_true] at hext
      by_cases hhb : (basePath != "" && startsWithS u (basePath ++ "/")) = true
      · rw [Bool.and_eq_true] at hhb
        have hfix := withBase_based_fixed basePath u (bne_iff_ne.mp hhb.1) hhb.2
        rw [hfix]
        exact hfix
      · rw [Bool.not_eq_true, Bool.and_eq_false_iff] at hhb
        have hhb' : (basePath != "" && startsWithS u (basePath ++ "/")) = false := by
          rcases hhb with h | h <;> simp [h]
        by_cases hsl : startsWithS u "/" = true
        · have hv : withBase basePath u = basePath ++ u := by
            simp [withBase, hne, hext, hhb', hsl]
          obtain ⟨t, ht⟩ := startsWith_slash_data hsl
          rw [hv]
          exact withBase_append_fixed basePath u hb ⟨t, ht⟩
        · rw [Bool.not_eq_true] at hsl
          have hv : withBase basePath u =
              basePath ++ ("/" ++ stripDotSlash u) := by
            simp [withBase, hne, hext, hhb', hsl, String.append_assoc]
          rw [hv]
          refine withBase_append_fixed basePath ("/" ++ stripDotSlash u) hb
            ⟨(stripDotSlash u).data, ?_⟩
          rw [String.data_append]
          rfl

/-- Witness for `withBase_idempotent` on the github.io base path
`"/repo"`: a relative URL, an external URL and an already-based URL. -/
theorem withBase_idempotent_witness :
    withBase "/repo" (withBase "/repo" "generated/x.jpg") =
      withBase "/repo" "generated/x.jpg" ∧
    withBase "/repo" "http://example.com/a.jpg" = "http://example.com/a.jpg" ∧
    withBase "/repo" "/repo/generated/x.jpg" = "/repo/generated/x.jpg" :=
  ⟨(withBase_idempotent "/repo" "generated/x.jpg" (Or.inr ⟨"repo", by decide⟩)).1,
   (withBase_idempotent "/repo" "http://example.com/a.jpg"
      (Or.inr ⟨"repo", by decide⟩)).2.1 (by decide),
   (withBase_idempotent "/repo" "/repo/generated/x.jpg"
      (Or.inr ⟨"repo", by decide⟩)).2.2 (by decide) (by decide)⟩

theorem leL_total (x y : List Char) : (leL x y || leL y x) = true := by
  induction x generalizing y with
  | nil => simp [leL]
  | cons a as ih =>
    cases y with
    | nil => simp [leL]
    | cons b bs =>
      simp only [leL]
      by_cases h1 : a.toNat < b.toNat
      · simp [h1]
      · by_cases h2 : b.toNat < a.toNat
        · simp [h1, h2]
        · simp [h1, h2, ih bs]

theorem leL_trans (x y z : List Char) (h1 : leL x y = true) (h2 : leL y z = true) :
    leL x z = true := by
  induction x generalizing y z with
  | nil => simp [leL]
  | cons a as ih =>
    cases y with
    | nil => simp [leL] at h1
    | cons b bs =>
      cases z with
      | nil => simp [leL] at h2
      | cons c cs =>
        simp only [leL] at h1 h2 ⊢
        by_cases hab : a.toNat < b.toNat
        · by_cases hbc : b.toNat < c.toNat
          · simp [show a.toNat < c.toNat by omega]
          · by_cases hcb : c.toNat < b.toNat
            · rw [if_neg hbc, if_pos hcb] at h2
              simp at h2
            · simp [show a.toNat < c.toNat by omega]
        · by_cases hba : b.toNat < a.toNat
          · rw [if_neg hab, if_pos hba] at h1
            simp at h1
          · rw [if_neg hab, if_neg hba] at h1
            by_cases hbc : b.toNat < c.toNat
            · simp [show a.toNat < c.toNat by omega]
            · by_cases hcb : c.toNat < b.toNat
              · rw [if_neg hbc, if_pos hcb] at h2
                simp at h2
              · rw [if_neg hbc, if_neg hcb] at h2
                rw [if_neg (show ¬a.toNat < c.toNat by omega),
                  if_neg (show ¬c.toNat < a.toNat by omega)]
                exact ih bs cs h1 h2

/-- C3: renderHome appends the cards in descending sort-key order — in
the rendered sequence every card's sort key is at least the next one's,
a missing key reading as the empty string — and, when there are
projects, the grid holds exactly the card of each sorted project. -/
theorem home_cards_sorted (basePath dataUrl : String) (m : Manifest) :
    List.Chain' (fun a b => leL (sortKeyD b).data (sortKeyD a).data = true)
      (renderHomeProjects m) ∧
    (renderHomeProjects m ≠ [] →
      renderHome basePath dataUrl (some m) =
        .cards ((renderHomeProjects m).map (buildProjectCard basePath))) := by
  constructor
  · have hp : List.Pairwise (fun a b => homeLe a b = true)
        ((m.projects.getD []).mergeSort homeLe) :=
      @List.sorted_mergeSort Project homeLe
        (fun a b c hab hbc => leL_trans _ _ _ hbc hab)
        (fun a b => leL_total (sortKeyD b).data (sortKeyD a).data)
        (m.projects.getD [])
    exact hp.chain'
  · intro h
    have hne : ((m.projects.getD []).mergeSort homeLe).isEmpty = false := by
      rw [List.isEmpty_eq_false_iff_exists_mem]
      rcases List.exists_mem_of_ne_nil _ h with ⟨x, hx⟩
      exact ⟨x, hx⟩
    simp [renderHome, renderHomeProjects, hne]

/-- Witness for `home_cards_sorted` on the one-project manifest. -/
theorem home_cards_sorted_witness :
    renderHome "" "generated/gallery.json" (some mOne) =
      .cards ((renderHomeProjects mOne).map (buildProjectCard "")) :=
  (home_cards_sorted "" "generated/gallery.json" mOne).2
    (by simp [renderHomeProjects, mOne, List.mergeSort_singleton])

theorem mem_map_fst_ite (c : Bool) (a b k : String) :
    (k ∈ (if c = true then [(a, b)] else []).map Prod.fst) ↔ (k = a ∧ c = true) := by
  cases c <;> simp

theorem mem_tabList_fst_iff (p : Project) (k : String) :
    k ∈ (tabList p).map Prod.fst ↔
      ((k = "overview" ∧ hasOverviewContent p = true) ∨
       (k = "all" ∧ anyMedia p = true) ∨
       (k = "renderings" ∧ hasPhaseContent (phaseRenderings p) = true) ∨
       (k = "before" ∧ hasPhaseContent (phaseBefore p) = true) ∨
       (k = "during" ∧ hasPhaseContent (phaseDuring p) = true) ∨
       (k = "after" ∧ hasPhaseContent (phaseAfter p) = true)) := by
  simp only [tabList, List.map_append, List.mem_append, mem_map_fst_ite]
  tauto

theorem isEmpty_false_iff {α : Type} (l : List α) : l.isEmpty = false ↔ l ≠ [] := by
  cases l <;> simp

theorem hasPhaseContent_iff (op : Option Phase) :
    hasPhaseContent op = true ↔
      ∃ ph, op = some ph ∧
        ((ph.images.getD []) ≠ [] ∨ (ph.videos.getD []) ≠ []) := by
  cases op with
  | none => simp [hasPhaseContent]
  | some ph =>
    simp only [hasPhaseContent, Bool.or_eq_true, Bool.not_eq_true',
      isEmpty_false_iff, Option.some.injEq]
    constructor
    · intro h
      exact ⟨ph, rfl, h⟩
    · rintro ⟨ph', rfl, h⟩
      exact h

theorem renderPhase_eq_none_iff (basePath k t : String) (op : Option Phase) :
    renderPhase basePath k t op = none ↔ hasPhaseContent op = false := by
  cases op with
  | none => simp [renderPhase, hasPhaseContent]
  | some ph =>
    simp only [renderPhase, hasPhaseContent]
    by_cases hi : (ph.images.getD []).isEmpty <;>
      by_cases hv : (ph.videos.getD []).isEmpty <;> simp [hi, hv]

/-- C1: renderProject shows a tab for a phase exactly when that phase is
present and holds at least one image or video; a phase without media
yields no gallery section (`renderPhase` returns null) and no tab; and a
project with no media in any phase gets at most an Overview tab. -/
theorem phase_tabs_iff_media (basePath : String) (p : Project) :
    (∀ k ∈ phaseKeys,
      (k ∈ (tabList p).map Prod.fst ↔
        ∃ ph, phaseOf p k = some ph ∧
          ((ph.images.getD []) ≠ [] ∨ (ph.videos.getD []) ≠ []))) ∧
    (∀ k ∈ phaseKeys, ∀ t : String,
      (¬ ∃ ph, phaseOf p k = some ph ∧
          ((ph.images.getD []) ≠ [] ∨ (ph.videos.getD []) ≠ [])) →
        renderPhase basePath k t (phaseOf p k) = none) ∧
    ((∀ k ∈ phaseKeys,
        ¬ ∃ ph, phaseOf p k = some ph ∧
          ((ph.images.getD []) ≠ [] ∨ (ph.videos.getD []) ≠ [])) →
      tabList p = if hasOverviewContent p then [("overview", "Overview")] else []) := by
  refine ⟨?_, ?_, ?_⟩
  · intro k hk
    rw [mem_tabList_fst_iff, ← hasPhaseContent_iff]
    fin_cases hk <;> simp [phaseOf]
  · intro k hk t hno
    rw [← hasPhaseContent_iff, Bool.not_eq_true] at hno
    exact (renderPhase_eq_none_iff basePath k t (phaseOf p k)).mpr hno
  · intro hall
    have hr : hasPhaseContent (phaseRenderings p) = false := by
      have := hall "renderings" (by simp [phaseKeys])
      rw [← hasPhaseContent_iff, Bool.not_eq_true] at this
      simpa [phaseOf] using this
    have hb : hasPhaseContent (phaseBefore p) = false := by
      have := hall "before" (by simp [phaseKeys])
      rw [← hasPhaseContent_iff, Bool.not_eq_true] at this
      simpa [phaseOf] using this
    have hd : hasPhaseContent (phaseDuring p) = false := by
      have := hall "during" (by simp [phaseKeys])
      rw [← hasPhaseContent_iff, Bool.not_eq_true] at this
      simpa [phaseOf] using this
    have ha : hasPhaseContent (phaseAfter p) = false := by
      have := hall "after" (by simp [phaseKeys])
      rw [← hasPhaseContent_iff, Bool.not_eq_true] at this
      simpa [phaseOf] using this
    have hm : anyMedia p = false := by
      simp [anyMedia, hr, hb, hd, ha]
    by_cases ho : hasOverviewContent p <;> simp [tabList, hr, hb, hd, ha, hm, ho]

/-- Witness for `phase_tabs_iff_media`: on the sample project the before
tab is present (its phase has an image), the renderings tab is absent,
and `renderPhase` is null on its empty renderings phase. -/
theorem phase_tabs_iff_media_witness :
    "before" ∈ (tabList p0).map Prod.fst ∧
    renderPhase "" "renderings" "Renderings" (phaseOf p0 "renderings") = none :=
  ⟨((phase_tabs_iff_media "" p0).1 "before" (by decide)).mpr
      ⟨{ images := some [imgA], videos := none }, by decide, Or.inl (by decide)⟩,
   (phase_tabs_iff_media "" p0).2.1 "renderings" (by decide) "Renderings"
      (by decide)⟩

theorem contains_eq_decide_mem (l : List String) (a : String) :
    l.contains a = decide (a ∈ l) :=
  List.elem_eq_mem a l

theorem media_not_in_tabKeys (p : Project) :
    ((tabList p).map Prod.fst).contains "media" = false := by
  rw [contains_eq_decide_mem, decide_eq_false_iff_not, mem_tabList_fst_iff]
  simp

theorem defaultTab_eq_amended (want : String) (tl : List (String × String))
    (hm : (tl.map Prod.fst).contains "media" = false) :
    defaultTab want tl = amendedInitialTab want tl := by
  unfold defaultTab amendedInitialTab
  by_cases hA : (tl.map Prod.fst).contains want = true
  · by_cases hO : want = "overview"
    · subst hO
      simp only [hA, beq_self_eq_true, Bool.true_and, Bool.false_and, Bool.and_true,
        Bool.and_false, Bool.true_or, Bool.false_or, Bool.or_true, Bool.or_false,
        Bool.not_true, Bool.not_false, eq_self_iff_true, Bool.false_eq_true,
        ite_true, ite_false]
    · by_cases hAll : want = "all"
      · subst hAll
        have d6 : (("all" : String) == "overview") = false := by decide
        simp only [hA, d6, beq_self_eq_true, Bool.true_and, Bool.false_and,
          Bool.and_true, Bool.and_false, Bool.true_or, Bool.false_or, Bool.or_true,
          Bool.or_false, Bool.not_true, Bool.not_false, eq_self_iff_true,
          Bool.false_eq_true, ite_true, ite_false]
      · have hM : want ≠ "media" := by
          intro he
          subst he
          rw [hm] at hA
          exact Bool.false_ne_true hA
        have hbO : (want == "overview") = false := beq_eq_false_iff_ne.mpr hO
        have hbA : (want == "all") = false := beq_eq_false_iff_ne.mpr hAll
        have hbM : (want == "media") = false := beq_eq_false_iff_ne.mpr hM
        simp only [hA, hbO, hbA, hbM, beq_self_eq_true, Bool.true_and,
          Bool.false_and, Bool.and_true, Bool.and_false, Bool.true_or, Bool.false_or,
          Bool.or_true, Bool.or_false, Bool.not_true, Bool.not_false,
          eq_self_iff_true, Bool.false_eq_true, ite_true, ite_false]
  · rw [Bool.not_eq_true] at hA
    by_cases hM : want = "media"
    · subst hM
      have d1 : (("media" : String) == "overview") = false := by decide
      have d2 : (("media" : String) == "all") = false := by decide
      by_cases hCA : (tl.map Prod.fst).contains "all" = true
      · simp only [hA, hCA, d1, d2, beq_self_eq_true, Bool.true_and, Bool.false_and,
          Bool.and_true, Bool.and_false, Bool.true_or, Bool.false_or, Bool.or_true,
          Bool.or_false, Bool.not_true, Bool.not_false, eq_self_iff_true,
          Bool.false_eq_true, ite_true, ite_false]
      · rw [Bool.not_eq_true] at hCA
        cases tl with
        | nil =>
          simp only [hA, hCA, d1, d2, beq_self_eq_true, Bool.true_and,
            Bool.false_and, Bool.and_true, Bool.and_false, Bool.true_or,
            Bool.false_or, Bool.or_true, Bool.or_false, Bool.not_true,
            Bool.not_false, eq_self_iff_true, Bool.false_eq_true, ite_true,
            ite_false]
        | cons t r =>
          have hhd : ((t :: r).map Prod.fst).contains t.1 = true := by
            simp [List.contains_cons]
          simp only [hA, hCA, d1, d2, hhd, beq_self_eq_true, Bool.true_and,
            Bool.false_and, Bool.and_true, Bool.and_false, Bool.true_or,
            Bool.false_or, Bool.or_true, Bool.or_false, Bool.not_true,
            Bool.not_false, eq_self_iff_true, Bool.false_eq_true, ite_true,
            ite_false]
    · have hbM : (want == "media") = false := beq_eq_false_iff_ne.mpr hM
      have hb1 : ((want == "overview") && (tl.map Prod.fst).contains "overview")
          = false := by
        by_cases hO : want = "overview"
        · subst hO
          rw [beq_self_eq_true, Bool.true_and]
          exact hA
        · simp [beq_eq_false_iff_ne.mpr hO]
      have hb2 : ((want == "all") && (tl.map Prod.fst).contains "all") = false := by
        by_cases hAll : want = "all"
        · subst hAll
          rw [beq_self_eq_true, Bool.true_and]
          exact hA
        · simp [beq_eq_false_iff_ne.mpr hAll]
      cases tl with
      | nil =>
        have hCAnil :
            (List.map Prod.fst ([] : List (String × String))).contains "all"
              = false := rfl
        simp only [hb1, hb2, hA, hbM, hCAnil, beq_self_eq_true, Bool.true_and,
          Bool.false_and, Bool.and_true, Bool.and_false, Bool.true_or,
          Bool.false_or, Bool.or_true, Bool.or_false, Bool.not_true,
          Bool.not_false, eq_self_iff_true, Bool.false_eq_true, ite_true,
          ite_false]
      | cons t r =>
        have hhd : ((t :: r).map Prod.fst).contains t.1 = true := by
          simp [List.contains_cons]
        simp only [hb1, hb2, hA, hbM, hhd, beq_self_eq_true, Bool.true_and,
          Bool.false_and, Bool.and_true, Bool.and_false, Bool.true_or,
          Bool.false_or, Bool.or_true, Bool.or_false, Bool.not_true,
          Bool.not_false, eq_self_iff_true, Bool.false_eq_true, ite_true,
          ite_false]

/-- C4 counterexample: with `?tab=media` on a project whose tab list is
`[overview, all, before]`, the parameter names no available tab
("media" is not a tab key), so the claim's rule picks the first
available tab, "overview" (as `claimInitialTab` computes) — but the
code switches to "all". -/
theorem initial_tab_claim_counterexample :
    defaultTab (toLowerS "media") (tabList p0) = "all" ∧
    claimInitialTab (toLowerS "media") (tabList p0) = "overview" ∧
    claimInitialTab (toLowerS "media") (tabList p0) ≠
      defaultTab (toLowerS "media") (tabList p0) := by
  decide

/-- C4 (amended): the lowercased `tab` parameter selects the initial
view as follows — a parameter naming an available tab selects that tab;
the alias "media" selects "all" whenever the All tab is available;
otherwise the first available tab is selected, and "overview" when no
tab is available at all. -/
theorem initial_tab_selection (p : Project) (raw : String) :
    defaultTab (toLowerS raw) (tabList p) =
      amendedInitialTab (toLowerS raw) (tabList p) :=
  defaultTab_eq_amended (toLowerS raw) (tabList p) (media_not_in_tabKeys p)

/-- C5: a manifest fetch that does not complete successfully makes both
renderHome and renderProject write the inline `Failed to load <url>`
card into their mount element and stop: no cards, sections or tabs are
built. -/
theorem fetch_failure_renders_error (basePath slug dataUrl : String)
    (tabParam : Option String) :
    renderHome basePath dataUrl none = .fetchError (failedHtml dataUrl) ∧
    renderProject basePath slug dataUrl tabParam none =
      .fetchError (failedHtml dataUrl) :=
  ⟨rfl, rfl⟩

/-- C6: when the manifest loads but no project's slug equals the page's
`data-project-slug`, renderProject writes the "not found" card and
returns without building a page. -/
theorem missing_slug_renders_not_found (basePath slug dataUrl : String)
    (tabParam : Option String) (data : Manifest)
    (h : ∀ q ∈ data.projects.getD [], q.slug ≠ slug) :
    renderProject basePath slug dataUrl tabParam (some data) =
      .notFound (notFoundHtml slug) := by
  have hf : (data.projects.getD []).find? (fun x => x.slug == slug) = none := by
    rw [List.find?_eq_none]
    intro x hx
    simpa using h x hx
  simp [renderProject, hf]

/-- Witness for `missing_slug_renders_not_found`: the one-project
manifest holds no project with slug "nope". -/
theorem missing_slug_renders_not_found_witness :
    renderProject "" "nope" "generated/gallery.json" none (some mOne) =
      .notFound (notFoundHtml "nope") :=
  missing_slug_renders_not_found "" "nope" "generated/gallery.json" none mOne
    (by decide)

/-- C7: renderProject renders an overview info row for a metadata field
exactly when its value is non-empty after trimming; a missing field
(`safeText` of `none` is the empty string) yields no row and no error. -/
theorem info_row_iff_nonempty (p : Project) (k v : String)
    (h : (k, v) ∈ overviewFields p) :
    ((k, v) ∈ infoRows p ↔ v ≠ "") ∧ safeText none = "" := by
  refine ⟨?_, rfl⟩
  rw [infoRows, List.mem_filter]
  simp [h, bne_iff_ne]

/-- Witness for `info_row_iff_nonempty`: the location row of the sample
project is rendered. -/
theorem info_row_iff_nonempty_witness :
    ("Location", "Sydney") ∈ infoRows p0 :=
  ((info_row_iff_nonempty p0 "Location" "Sydney" (by decide)).1).mpr (by decide)

/-- C8 (build modelled from the spec): re-running the build against an
unchanged input tree rewrites a byte-identical manifest — the second run
produces exactly the state of the first, since the build reads only the
input tree. -/
theorem build_idempotent (s : SiteState) :
    runBuild (runBuild s) = runBuild s ∧
    (runBuild (runBuild s)).manifest = some (buildManifestBytes s.input) :=
  ⟨rfl, rfl⟩

/-- C2: on a non-empty item list, lightbox.js `next` keeps the items,
advances the current index by one modulo the list length and, when the
current index is the last one (`length - 1`), wraps to index 0 so that
`render` shows the first image again. -/
theorem next_advances_modulo (st : LightboxState) (h : st.items ≠ []) :
    (Lightbox.next st).items = st.items ∧
    (Lightbox.next st).idx = (st.idx + 1) % st.items.length ∧
    (st.idx = st.items.length - 1 →
      (Lightbox.next st).idx = 0 ∧
      Lightbox.render (Lightbox.next st) = st.items.head?) := by
  have hne : st.items.isEmpty = false := by
    simp [List.isEmpty_iff, h]
  refine ⟨by simp [Lightbox.next, hne], by simp [Lightbox.next, hne], ?_⟩
  intro hidx
  have hlen : 0 < st.items.length := List.length_pos.mpr h
  have h0 : (st.idx + 1) % st.items.length = 0 := by
    rw [hidx, Nat.sub_add_cancel hlen, Nat.mod_self]
  constructor
  · simp [Lightbox.next, hne, h0]
  · simp only [Lightbox.render, Lightbox.next, hne, Bool.false_eq_true, if_false, h0,
      List.get?_eq_getElem?]
    cases ht : st.items with
    | nil => exact absurd ht h
    | cons a t => simp

/-- Witness for `next_advances_modulo` at a concrete two-image state with
the cursor on the last image. -/
theorem next_advances_modulo_witness :
    (Lightbox.next ⟨[imgA, imgB], 1⟩).idx = 0 ∧
    Lightbox.render (Lightbox.next ⟨[imgA, imgB], 1⟩) = some imgA :=
  let h := (next_advances_modulo ⟨[imgA, imgB], 1⟩ (by decide)).2.2 (by decide)
  ⟨h.1, by rw [h.2]; rfl⟩

/-- C9: the lightbox keeps `0 ≤ idx < items.length` whenever `items` is
non-empty: `open` clamps any start index (negative or past the end) into
range, `prev` and `next` keep the index in range, `render` under the
invariant really reads `items[idx]`; and on an empty item list `prev`,
`next` and `render` do nothing. -/
theorem lightbox_index_invariant (newItems : List Image) (startIndex : Int)
    (st : LightboxState) :
    (newItems ≠ [] →
      (Lightbox.open' newItems startIndex).items = newItems ∧
      (Lightbox.open' newItems startIndex).idx < newItems.length) ∧
    (st.items ≠ [] →
      (Lightbox.prev st).idx < st.items.length ∧
      (Lightbox.next st).idx < st.items.length) ∧
    (st.idx < st.items.length →
      Lightbox.render st = st.items.get? st.idx ∧
      (Lightbox.render st).isSome = true) ∧
    (st.items = [] →
      Lightbox.prev st = st ∧ Lightbox.next st = st ∧
      Lightbox.render st = none) := by
  refine ⟨?_, ?_, ?_, ?_⟩
  · intro h
    have hlen : 0 < newItems.length := List.length_pos.mpr h
    refine ⟨rfl, ?_⟩
    simp only [Lightbox.open']
    omega
  · intro h
    have hne : st.items.isEmpty = false := by simp [List.isEmpty_iff, h]
    have hlen : 0 < st.items.length := List.length_pos.mpr h
    constructor
    · simp only [Lightbox.prev, hne, Bool.false_eq_true, if_false]
      have hnn : (0 : Int) ≤ ((st.idx : Int) - 1 + st.items.length) % st.items.length :=
        Int.emod_nonneg _ (by omega)
      have hlt : ((st.idx : Int) - 1 + st.items.length) % st.items.length <
          st.items.length := Int.emod_lt_of_pos _ (by omega)
      omega
    · simp only [Lightbox.next, hne, Bool.false_eq_true, if_false]
      exact Nat.mod_lt _ hlen
  · intro h
    have hne : st.items.isEmpty = false := by
      simp only [List.isEmpty_eq_false_iff_exists_mem]
      exact ⟨st.items.get ⟨st.idx, h⟩, List.get_mem _ _ h⟩
    constructor
    · simp [Lightbox.render, hne]
    · simp [Lightbox.render, hne, List.get?_eq_getElem?, List.getElem?_eq_getElem h]
  · intro h
    have hne : st.items.isEmpty = true := by simp [h]
    refine ⟨?_, ?_, ?_⟩ <;> simp [Lightbox.prev, Lightbox.next, Lightbox.render, hne]

/-- Witness for `lightbox_index_invariant`: a negative start index is
clamped to 0 on a singleton list, `prev`/`next` stay in range there, and
on the empty list `prev` is the identity. -/
theorem lightbox_index_invariant_witness :
    ((Lightbox.open' [imgA] (-5)).idx < [imgA].length) ∧
    ((Lightbox.prev ⟨[imgA], 0⟩).idx < [imgA].length) ∧
    ((Lightbox.render ⟨[imgA], 0⟩).isSome = true) ∧
    Lightbox.prev ⟨[], 3⟩ = ⟨[], 3⟩ :=
  ⟨((lightbox_index_invariant [imgA] (-5) ⟨[imgA], 0⟩).1 (by decide)).2,
   ((lightbox_index_invariant [imgA] (-5) ⟨[imgA], 0⟩).2.1 (by decide)).1,
   ((lightbox_index_invariant [imgA] (-5) ⟨[imgA], 0⟩).2.2.1 (by decide)).2,
   ((lightbox_index_invariant [] 0 ⟨[], 3⟩).2.2.2 rfl).1⟩

end Neds
